import Mathlib

/-!
Verification development for the InfinitycTac repository.

Shallow embedding of the game-rules engine (ClassicGameLogic, UltimateGameLogic),
the GameBoard component's ultimate-mode state derivation, and the room service
(GameService).  Cells hold the strings X, O or the empty string in the source;
out-of-range reads in the source yield undefined, which is falsy exactly like
the empty string in every guard of the scanning code and never compares equal
to a non-empty symbol, so grid lookups are modelled totally with the empty
cell as default.  Fallible operations are modelled with Option / Except.
-/

inductive Cell where
  | empty
  | x
  | o
deriving DecidableEq, Repr

abbrev Grid := List (List Cell)

/-- Total cell lookup; out of range reads give the empty cell (undefined is
falsy and unequal to any non-empty symbol in the source's comparisons). -/
def cellAt (g : Grid) (r c : Nat) : Cell :=
  (g.getD r []).getD c Cell.empty

def isSquare (g : Grid) : Prop :=
  ∀ row ∈ g, row.length = g.length

instance decIsSquare (g : Grid) : Decidable (isSquare g) :=
  inferInstanceAs (Decidable (∀ row ∈ g, row.length = g.length))

/-- Result record of ClassicGameLogic.checkWin: either both fields null or a
winner with its line.  A line entry is a list of numbers: the classic engine
produces two-element entries [row, col]; the ultimate meta-board maps them to
one-element entries [boardIndex]. -/
structure WinResult where
  winner : Option Cell
  winningLine : Option (List (List Nat))
deriving DecidableEq, Repr

/-- The four scan directions of ClassicGameLogic.checkWin, in source order. -/
inductive Dir where
  | horiz
  | vert
  | diagDR
  | diagDL
deriving DecidableEq, Repr

/-- The i-th cell of a run starting at (r, c) in direction d:
horizontal (r, c+i), vertical (r+i, c), diagonal down-right (r+i, c+i),
diagonal down-left (r+i, c-i). -/
def posAt : Dir → Nat → Nat → Nat → Nat × Nat
  | Dir.horiz, r, c, i => (r, c + i)
  | Dir.vert, r, c, i => (r + i, c)
  | Dir.diagDR, r, c, i => (r + i, c + i)
  | Dir.diagDL, r, c, i => (r + i, c - i)

/-- The body of one candidate check in checkWin: the symbol at (r, c) must be
non-empty and the k cells of the run must all equal it; on success the line of
[row, col] pairs is produced, in run order. -/
def tryWinAt (g : Grid) (k : Nat) (d : Dir) (r c : Nat) :
    Option (Cell × List (List Nat)) :=
  if cellAt g r c ≠ Cell.empty ∧
      ∀ i ∈ List.range k, cellAt g (posAt d r c i).1 (posAt d r c i).2 = cellAt g r c
  then some (cellAt g r c,
    (List.range k).map (fun i => [(posAt d r c i).1, (posAt d r c i).2]))
  else none

/-- Row scan start cells, in loop order: row 0..size-1 outer, col 0..size-k inner. -/
def horizCands (size k : Nat) : List (Nat × Nat) :=
  (List.range size).flatMap (fun row =>
    (List.range (size + 1 - k)).map (fun col => (row, col)))

/-- Column scan start cells: col outer, row 0..size-k inner. -/
def vertCands (size k : Nat) : List (Nat × Nat) :=
  (List.range size).flatMap (fun col =>
    (List.range (size + 1 - k)).map (fun row => (row, col)))

/-- Diagonal down-right scan start cells. -/
def diagDRCands (size k : Nat) : List (Nat × Nat) :=
  (List.range (size + 1 - k)).flatMap (fun row =>
    (List.range (size + 1 - k)).map (fun col => (row, col)))

/-- Diagonal down-left scan start cells: col runs from k-1 to size-1.
(For k = 0 the source starts the col loop at -1; that first iteration reads an
undefined cell, fails the truthiness guard and is a no-op, so it is dropped.) -/
def diagDLCands (size k : Nat) : List (Nat × Nat) :=
  (List.range (size + 1 - k)).flatMap (fun row =>
    (List.range' (k - 1) (size - (k - 1))).map (fun col => (row, col)))

/-- One direction's scan: first candidate whose run check succeeds. -/
def scanDir (g : Grid) (k : Nat) (d : Dir) (cands : List (Nat × Nat)) :
    Option (Cell × List (List Nat)) :=
  cands.findSome? (fun rc => tryWinAt g k d rc.1 rc.2)

/-- The four sequential scans of checkWin, each returning early on a hit. -/
def ClassicGameLogic.checkWinAux (g : Grid) (k : Nat) :
    Option (Cell × List (List Nat)) :=
  match scanDir g k Dir.horiz (horizCands g.length k) with
  | some res => some res
  | none =>
    match scanDir g k Dir.vert (vertCands g.length k) with
    | some res => some res
    | none =>
      match scanDir g k Dir.diagDR (diagDRCands g.length k) with
      | some res => some res
      | none => scanDir g k Dir.diagDL (diagDLCands g.length k)

/-- ClassicGameLogic.checkWin. -/
def ClassicGameLogic.checkWin (g : Grid) (k : Nat) : WinResult :=
  match ClassicGameLogic.checkWinAux g k with
  | some (s, line) => ⟨some s, some line⟩
  | none => ⟨none, none⟩

/-- UltimateGameLogic.getLocalBoardIndex: sub-board containing a global cell. -/
def UltimateGameLogic.getLocalBoardIndex (row col : Nat) : Nat :=
  row / 3 * 3 + col / 3

/-- UltimateGameLogic.getLocalCellCoords: (row mod 3, col mod 3). -/
def UltimateGameLogic.getLocalCellCoords (row col : Nat) : Nat × Nat :=
  (row % 3, col % 3)

/-- UltimateGameLogic.getLocalBoard: extract a 3x3 sub-board by index. -/
def UltimateGameLogic.getLocalBoard (g : Grid) (boardIndex : Nat) : Grid :=
  (List.range 3).map (fun row =>
    (List.range 3).map (fun col =>
      cellAt g (boardIndex / 3 * 3 + row) (boardIndex % 3 * 3 + col)))

/-- UltimateGameLogic.isLocalBoardFull. -/
def UltimateGameLogic.isLocalBoardFull (g : Grid) (boardIndex : Nat) : Bool :=
  (UltimateGameLogic.getLocalBoard g boardIndex).all (fun row =>
    row.all (fun cell => cell != Cell.empty))

/-- UltimateGameLogic.checkLocalWinner: classic checkWin with winLength 3 on
the extracted sub-board, winner only. -/
def UltimateGameLogic.checkLocalWinner (g : Grid) (boardIndex : Nat) : Option Cell :=
  (ClassicGameLogic.checkWin (UltimateGameLogic.getLocalBoard g boardIndex) 3).winner

/-- UltimateGameLogic.getLocalWinners: one entry per sub-board, index 0..8. -/
def UltimateGameLogic.getLocalWinners (g : Grid) : List (Option Cell) :=
  (List.range 9).map (fun i => UltimateGameLogic.checkLocalWinner g i)

/-- The 3x3 meta grid built inside checkGlobalWinner: entry (row, col) is
localWinners[row*3+col] with null (and undefined) coerced to the empty cell
by the source's or-with-empty-string. -/
def UltimateGameLogic.localGridOf (lw : List (Option Cell)) : Grid :=
  (List.range 3).map (fun row =>
    (List.range 3).map (fun col => (lw.getD (row * 3 + col) none).getD Cell.empty))

/-- UltimateGameLogic.checkGlobalWinner: classic checkWin on the meta grid;
a non-null winning line has each [row, col] entry mapped to the one-element
entry [row*3+col] (the source destructures the pair and rebuilds a
one-element array). -/
def UltimateGameLogic.checkGlobalWinner (lw : List (Option Cell)) : WinResult :=
  let result := ClassicGameLogic.checkWin (UltimateGameLogic.localGridOf lw) 3
  match result.winningLine with
  | some line =>
      ⟨result.winner, some (line.map (fun p => [p.getD 0 0 * 3 + p.getD 1 0]))⟩
  | none => result

/-- JS comparison localWinners[i] !== null: true when the index is out of
range (undefined !== null) and when the entry is a symbol; false on null. -/
def jsNotNull (entry : Option (Option Cell)) : Bool :=
  match entry with
  | none => true
  | some none => false
  | some (some _) => true

/-- UltimateGameLogic.getTargetBoard. -/
def UltimateGameLogic.getTargetBoard (lastMoveRow lastMoveCol : Nat) (g : Grid)
    (lw : List (Option Cell)) : Option Nat :=
  let coords := UltimateGameLogic.getLocalCellCoords lastMoveRow lastMoveCol
  let targetBoardIndex := coords.1 * 3 + coords.2
  if jsNotNull lw[targetBoardIndex]? || UltimateGameLogic.isLocalBoardFull g targetBoardIndex
  then none
  else some targetBoardIndex

/-- UltimateGameLogic.isValidMove: the row must exist, the cell must exist and
be empty (an out-of-range cell is undefined, which differs from the empty
string, so the source returns false); with no target restriction any such cell
is valid, otherwise the move's sub-board must equal the target. -/
def UltimateGameLogic.isValidMove (g : Grid) (row col : Nat)
    (targetBoard : Option Nat) : Bool :=
  match g[row]? with
  | none => false
  | some gridRow =>
    match gridRow[col]? with
    | none => false
    | some cell =>
      if cell != Cell.empty then false
      else
        match targetBoard with
        | none => true
        | some tb => UltimateGameLogic.getLocalBoardIndex row col == tb

/-- JS truthiness of the winner field: null is falsy, a symbol string is
truthy (the empty string would be falsy, but checkWin never produces it). -/
def truthyWinner (w : Option Cell) : Bool :=
  match w with
  | none => false
  | some s => s != Cell.empty

/-- UltimateGameLogic.checkDraw: false on a (truthy) global winner, else true
iff every cell of the grid is occupied. -/
def UltimateGameLogic.checkDraw (g : Grid) (lw : List (Option Cell)) : Bool :=
  if truthyWinner (UltimateGameLogic.checkGlobalWinner lw).winner then false
  else g.all (fun row => row.all (fun cell => cell != Cell.empty))

/-- The static methods the source defines on the UltimateGameLogic class,
in source order. -/
def UltimateGameLogic.definedMethods : List String :=
  ["getLocalBoardIndex", "getLocalCellCoords", "getLocalBoard",
   "isLocalBoardFull", "checkLocalWinner", "getLocalWinners",
   "checkGlobalWinner", "getTargetBoard", "isValidMove", "checkDraw",
   "getCurrentPlayer"]

/-- GameBoard's online (non-offline) target-board derivation for ultimate
mode: it invokes the member getTargetBoardFromGrid on UltimateGameLogic.
Dynamic member dispatch is modelled by a lookup in the class's method table:
an absent member is undefined and calling it throws a TypeError, modelled as
Except.error.  (The present branch is unreachable: the class defines no such
method, so no semantics exists for it.) -/
def GameBoard.onlineUltimateTargetBoard (g : Grid) (lw : List (Option Cell)) :
    Except String (Option Nat) :=
  if "getTargetBoardFromGrid" ∈ UltimateGameLogic.definedMethods
  then Except.ok none
  else Except.error ("TypeError: UltimateGameLogic.getTargetBoardFromGrid is not a function")

inductive GameMode where
  | classic
  | ultimate
deriving DecidableEq, Repr

structure Player where
  name : String
  status : String
  symbol : String
  client_id : String
deriving DecidableEq, Repr

/-- One stored room row, with the grid held as the decoded matrix (the wire
form wraps it in a one-element array of its JSON encoding; claims here are
about the decoded value).  restart_votes is the symbol-to-bool vote map as an
association list, empty map = []. -/
structure RoomRow where
  room_code : String
  mode : GameMode
  grid_size : Option Nat
  win_length : Option Nat
  players : List Player
  grid : Grid
  restart_votes : List (String × Bool)
  match_id : Nat
deriving DecidableEq, Repr

/-- JS x || d on an optional number: null and 0 are falsy. -/
def jsOrNat (x : Option Nat) (d : Nat) : Nat :=
  match x with
  | none => d
  | some n => if n = 0 then d else n

/-- An all-empty size x size grid, as built inline by the service
(Array(size).fill(null).map(() => Array(size).fill(''))). -/
def emptyGrid (size : Nat) : Grid :=
  List.replicate size (List.replicate size Cell.empty)

/-- GameService.resetGame, modelled from the point where the row has been
fetched: none = no update issued (the stale match_id early return), some row
= the update written back. -/
def GameService.resetGame (room : RoomRow) (currentMatchId : Nat) : Option RoomRow :=
  if room.match_id ≠ currentMatchId then none
  else
    let gridSize := if room.mode = GameMode.ultimate then 9 else jsOrNat room.grid_size 3
    some { room with
      grid := emptyGrid gridSize,
      restart_votes := [],
      match_id := currentMatchId + 1 }

/-- The room-code allocation loop of GameService.createRoom.  gen is the
stream of generated codes (one fresh code per iteration), ex the store's
existence lookup; fuel is the remaining attempt budget (10 - attempts) and
calls counts the generate-plus-lookup attempts performed.  Returns the
allocated code (none = budget exhausted) with the total attempt count. -/
def GameService.allocGo (ex : String → Bool) (gen : Nat → String) :
    Nat → Nat → Option String × Nat
  | 0, calls => (none, calls)
  | fuel + 1, calls =>
    if ex (gen calls) then GameService.allocGo ex gen fuel (calls + 1)
    else (some (gen calls), calls + 1)

/-- GameService.createRoom: allocate a unique code (10-attempt budget); on
exhaustion throw without inserting (modelled as first component none);
otherwise insert the initial row.  First component: the inserted row, if any;
second component: the number of generation attempts, each checked by one
existence lookup. -/
def GameService.createRoom (ex : String → Bool) (gen : Nat → String)
    (clientId : String) (mode : GameMode) (playerName : String)
    (gridSize winLength : Option Nat) : Option RoomRow × Nat :=
  match GameService.allocGo ex gen 10 0 with
  | (none, n) => (none, n)
  | (some code, n) =>
    (some
      { room_code := code
        mode := mode
        grid_size := if mode = GameMode.classic then gridSize else none
        win_length := if mode = GameMode.classic then winLength else none
        players := [{ name := playerName, status := "player", symbol := "X",
                      client_id := clientId }]
        grid := emptyGrid (if mode = GameMode.ultimate then 9 else jsOrNat gridSize 3)
        restart_votes := []
        match_id := 0 }, n)

/-- Map with the element index, mirroring Array.prototype.map with the index
argument; s is the index of the first element. -/
def mapWithIdx (f : Nat → α → β) : Nat → List α → List β
  | _, [] => []
  | s, a :: as => f s a :: mapWithIdx f (s + 1) as

/-- The grid rewrite inside GameService.makeMove: the addressed cell is set
to the symbol, every other cell is copied. -/
def GameService.applyMove (g : Grid) (row col : Nat) (s : Cell) : Grid :=
  mapWithIdx (fun rowIndex gridRow =>
    mapWithIdx (fun colIndex cell =>
      if rowIndex = row ∧ colIndex = col then s else cell) 0 gridRow) 0 g

/-- GameService.makeMove, modelled from the point where the row has been
fetched: the update writes back only the rewritten grid, unconditionally
(no emptiness or turn check is performed). -/
def GameService.makeMove (room : RoomRow) (row col : Nat) (s : Cell) : RoomRow :=
  { room with grid := GameService.applyMove room.grid row col s }

/-! ## Helper lemmas -/

lemma cellAt_ne_empty_lt {g : Grid} (hsq : isSquare g) {r c : Nat}
    (h : cellAt g r c ≠ Cell.empty) : r < g.length ∧ c < g.length := by
  unfold cellAt at h
  rcases Nat.lt_or_ge r g.length with hr | hr
  · have hrow : g.getD r [] = g[r] := List.getD_eq_getElem g [] hr
    have hlen : (g[r]).length = g.length := hsq _ (List.getElem_mem hr)
    refine ⟨hr, ?_⟩
    rcases Nat.lt_or_ge c g.length with hc | hc
    · exact hc
    · exact absurd (by rw [hrow, List.getD_eq_default _ _ (by omega)]) h
  · refine absurd ?_ h
    rw [List.getD_eq_default _ _ hr]
    rfl

lemma tryWinAt_eq_some {g : Grid} {k : Nat} {d : Dir} {r c : Nat} {s : Cell}
    {line : List (List Nat)} (h : tryWinAt g k d r c = some (s, line)) :
    s = cellAt g r c ∧ s ≠ Cell.empty ∧
      line = (List.range k).map (fun i => [(posAt d r c i).1, (posAt d r c i).2]) ∧
      ∀ i < k, cellAt g (posAt d r c i).1 (posAt d r c i).2 = s := by
  unfold tryWinAt at h
  split at h
  · rename_i hcond
    simp only [Option.some.injEq, Prod.mk.injEq] at h
    obtain ⟨hs, hline⟩ := h
    subst hs
    subst hline
    refine ⟨rfl, hcond.1, rfl, ?_⟩
    intro i hi
    exact hcond.2 i (List.mem_range.mpr hi)
  · exact absurd h (by simp)

lemma scanDir_eq_some {g : Grid} {k : Nat} {d : Dir} {cands : List (Nat × Nat)}
    {res : Cell × List (List Nat)} (h : scanDir g k d cands = some res) :
    ∃ rc ∈ cands, tryWinAt g k d rc.1 rc.2 = some res :=
  List.exists_of_findSome?_eq_some h

lemma mem_diagDLCands {size k : Nat} {rc : Nat × Nat}
    (h : rc ∈ diagDLCands size k) : k ≤ rc.2 + 1 := by
  unfold diagDLCands at h
  simp only [List.mem_flatMap, List.mem_map, List.mem_range] at h
  obtain ⟨row, hrow, col, hcol, rfl⟩ := h
  rw [List.mem_range'] at hcol
  obtain ⟨i, hi, rfl⟩ := hcol
  simp only []
  omega

lemma checkWinAux_eq_some {g : Grid} {k : Nat} {res : Cell × List (List Nat)}
    (h : ClassicGameLogic.checkWinAux g k = some res) :
    ∃ d r c, tryWinAt g k d r c = some res ∧ (d = Dir.diagDL → k ≤ c + 1) := by
  unfold ClassicGameLogic.checkWinAux at h
  split at h
  · rename_i heq
    obtain ⟨rc, _, htry⟩ := scanDir_eq_some heq
    exact ⟨Dir.horiz, rc.1, rc.2, by rw [htry, h], by intro hd; cases hd⟩
  · split at h
    · rename_i heq
      obtain ⟨rc, _, htry⟩ := scanDir_eq_some heq
      exact ⟨Dir.vert, rc.1, rc.2, by rw [htry, h], by intro hd; cases hd⟩
    · split at h
      · rename_i heq
        obtain ⟨rc, _, htry⟩ := scanDir_eq_some heq
        exact ⟨Dir.diagDR, rc.1, rc.2, by rw [htry, h], by intro hd; cases hd⟩
      · obtain ⟨rc, hmem, htry⟩ := scanDir_eq_some h
        exact ⟨Dir.diagDL, rc.1, rc.2, htry, fun _ => mem_diagDLCands hmem⟩

/-- Full specification of a checkWin result on a square grid: either the
null record, or a winner with a line of exactly k in-bounds cells that all
hold the winning symbol and form one consecutive run of a row, column or
diagonal (for the down-left diagonal the start column is at least k-1, so no
index clamping occurs). -/
lemma checkWin_spec (g : Grid) (k : Nat) (hsq : isSquare g) :
    ClassicGameLogic.checkWin g k = ⟨none, none⟩ ∨
    ∃ s line, ClassicGameLogic.checkWin g k = ⟨some s, some line⟩ ∧
      (s = Cell.x ∨ s = Cell.o) ∧ line.length = k ∧
      (∀ p ∈ line, ∃ r c, p = [r, c] ∧ r < g.length ∧ c < g.length ∧ cellAt g r c = s) ∧
      (∃ d r c, (d = Dir.diagDL → k ≤ c + 1) ∧
        line = (List.range k).map (fun i => [(posAt d r c i).1, (posAt d r c i).2])) := by
  cases hres : ClassicGameLogic.checkWinAux g k with
  | none =>
    left
    unfold ClassicGameLogic.checkWin
    rw [hres]
  | some res =>
    obtain ⟨s, line⟩ := res
    obtain ⟨d, r, c, htry, hdl⟩ := checkWinAux_eq_some hres
    obtain ⟨hs, hne, hline, hall⟩ := tryWinAt_eq_some htry
    right
    refine ⟨s, line, by unfold ClassicGameLogic.checkWin; rw [hres], ?_, ?_, ?_,
      ⟨d, r, c, hdl, hline⟩⟩
    · cases s
      · exact absurd rfl hne
      · exact Or.inl rfl
      · exact Or.inr rfl
    · rw [hline]
      simp
    · intro p hp
      rw [hline] at hp
      simp only [List.mem_map, List.mem_range] at hp
      obtain ⟨i, hik, rfl⟩ := hp
      have hcell := hall i hik
      have hbnd := cellAt_ne_empty_lt hsq (by rw [hcell]; exact hne)
      exact ⟨(posAt d r c i).1, (posAt d r c i).2, rfl, hbnd.1, hbnd.2, hcell⟩

/-- The winner field of checkWin is never the (falsy) empty symbol. -/
lemma checkWin_winner_ne_empty {g : Grid} {k : Nat} {s : Cell}
    (h : (ClassicGameLogic.checkWin g k).winner = some s) : s ≠ Cell.empty := by
  unfold ClassicGameLogic.checkWin at h
  cases hres : ClassicGameLogic.checkWinAux g k with
  | none => rw [hres] at h; exact absurd h (by simp)
  | some res =>
    obtain ⟨s', line⟩ := res
    rw [hres] at h
    obtain ⟨_, _, _, htry, _⟩ := checkWinAux_eq_some hres
    obtain ⟨_, hne, _, _⟩ := tryWinAt_eq_some htry
    simp only [Option.some.injEq] at h
    subst h
    exact hne

/-- A grid is all-filled in the source's nested every-loops exactly when every
in-bounds cell is non-empty. -/
lemma allCells_iff {g : Grid} (hsq : isSquare g) :
    (g.all (fun row => row.all (fun cell => cell != Cell.empty)) = true) ↔
      ∀ r < g.length, ∀ c < g.length, cellAt g r c ≠ Cell.empty := by
  simp only [List.all_eq_true, bne_iff_ne, ne_eq]
  constructor
  · intro h r hr c hc
    have hrow : g.getD r [] = g[r] := List.getD_eq_getElem g [] hr
    have hlen : (g[r]).length = g.length := hsq _ (List.getElem_mem hr)
    have hc' : c < (g[r]).length := by omega
    have hcell : (g[r]).getD c Cell.empty = (g[r])[c] :=
      List.getD_eq_getElem (g[r]) Cell.empty hc'
    unfold cellAt
    rw [hrow, hcell]
    exact h _ (List.getElem_mem hr) _ (List.getElem_mem hc')
  · intro h row hrow cell hcell
    obtain ⟨r, hr, rfl⟩ := List.mem_iff_getElem.mp hrow
    obtain ⟨c, hc, rfl⟩ := List.mem_iff_getElem.mp hcell
    have hlen : (g[r]).length = g.length := hsq _ (List.getElem_mem hr)
    have goal := h r hr c (by omega)
    unfold cellAt at goal
    rw [List.getD_eq_getElem g [] hr, List.getD_eq_getElem (g[r]) Cell.empty hc] at goal
    exact goal

lemma localGridOf_length (lw : List (Option Cell)) :
    (UltimateGameLogic.localGridOf lw).length = 3 := by
  unfold UltimateGameLogic.localGridOf
  simp

lemma localGridOf_isSquare (lw : List (Option Cell)) :
    isSquare (UltimateGameLogic.localGridOf lw) := by
  intro row hrow
  rw [localGridOf_length]
  unfold UltimateGameLogic.localGridOf at hrow
  simp only [List.mem_map, List.mem_range] at hrow
  obtain ⟨r, _, rfl⟩ := hrow
  simp

lemma getLocalWinners_getElem? (g : Grid) {i : Nat} (hi : i < 9) :
    (UltimateGameLogic.getLocalWinners g)[i]? =
      some (UltimateGameLogic.checkLocalWinner g i) := by
  unfold UltimateGameLogic.getLocalWinners
  rw [List.getElem?_map, List.getElem?_range hi]
  rfl

lemma isLocalBoardFull_iff (g : Grid) (i : Nat) :
    UltimateGameLogic.isLocalBoardFull g i = true ↔
      ∀ r < 3, ∀ c < 3, cellAt g (i / 3 * 3 + r) (i % 3 * 3 + c) ≠ Cell.empty := by
  unfold UltimateGameLogic.isLocalBoardFull UltimateGameLogic.getLocalBoard
  simp only [List.all_eq_true, bne_iff_ne, ne_eq]
  constructor
  · intro h r hr c hc
    exact h _ (List.mem_map.mpr ⟨r, List.mem_range.mpr hr, rfl⟩) _
      (List.mem_map.mpr ⟨c, List.mem_range.mpr hc, rfl⟩)
  · intro h row hrow cell hcell
    obtain ⟨r, hr, rfl⟩ := List.mem_map.mp hrow
    obtain ⟨c, hc, rfl⟩ := List.mem_map.mp hcell
    exact h r (List.mem_range.mp hr) c (List.mem_range.mp hc)

lemma mapWithIdx_getElem? (f : Nat → α → β) (s : Nat) (l : List α) (i : Nat) :
    (mapWithIdx f s l)[i]? = (l[i]?).map (f (s + i)) := by
  induction l generalizing s i with
  | nil => simp [mapWithIdx]
  | cons a as ih =>
    cases i with
    | zero => simp [mapWithIdx]
    | succ j =>
      unfold mapWithIdx
      rw [List.getElem?_cons_succ, List.getElem?_cons_succ, ih]
      have : s + (j + 1) = s + 1 + j := by omega
      rw [this]

lemma mapWithIdx_length (f : Nat → α → β) (s : Nat) (l : List α) :
    (mapWithIdx f s l).length = l.length := by
  induction l generalizing s with
  | nil => rfl
  | cons a as ih => unfold mapWithIdx; simp [ih]

/-- The spec's worked example grid: [[X,X,X],[O,O,''],['','','']]. -/
def exGrid1 : Grid :=
  [[Cell.x, Cell.x, Cell.x], [Cell.o, Cell.o, Cell.empty],
   [Cell.empty, Cell.empty, Cell.empty]]

/-- The full candidate sequence of checkWin, tagged with the direction of each
scan, in the source's order: horizontal row-major, then vertical, then
diagonal down-right, then diagonal down-left. -/
def scanOrderCands (size k : Nat) : List (Dir × Nat × Nat) :=
  (horizCands size k).map (fun rc => (Dir.horiz, rc)) ++
  (vertCands size k).map (fun rc => (Dir.vert, rc)) ++
  (diagDRCands size k).map (fun rc => (Dir.diagDR, rc)) ++
  (diagDLCands size k).map (fun rc => (Dir.diagDL, rc))

lemma checkWinAux_eq_or (g : Grid) (k : Nat) :
    ClassicGameLogic.checkWinAux g k =
      ((scanDir g k Dir.horiz (horizCands g.length k)).or
        ((scanDir g k Dir.vert (vertCands g.length k)).or
          ((scanDir g k Dir.diagDR (diagDRCands g.length k)).or
            (scanDir g k Dir.diagDL (diagDLCands g.length k))))) := by
  unfold ClassicGameLogic.checkWinAux
  cases scanDir g k Dir.horiz (horizCands g.length k) <;>
    cases scanDir g k Dir.vert (vertCands g.length k) <;>
      cases scanDir g k Dir.diagDR (diagDRCands g.length k) <;> rfl

/-! ## Claims -/

/-- C1: for every square grid and every winLength, ClassicGameLogic.checkWin
returns either the all-null record or a winner in X, O together with a winning
line of exactly winLength in-bounds [row, col] pairs that are consecutive
cells of one row, one column or one diagonal, all holding the winner; it never
reports a win backed by fewer than winLength consecutive equal non-empty
cells. -/
theorem claim_C1_checkWin_sound (g : Grid) (k : Nat) (hsq : isSquare g) :
    ClassicGameLogic.checkWin g k = ⟨none, none⟩ ∨
    ∃ s line, ClassicGameLogic.checkWin g k = ⟨some s, some line⟩ ∧
      (s = Cell.x ∨ s = Cell.o) ∧ line.length = k ∧
      (∀ p ∈ line, ∃ r c, p = [r, c] ∧ r < g.length ∧ c < g.length ∧ cellAt g r c = s) ∧
      (∃ d r c, (d = Dir.diagDL → k ≤ c + 1) ∧
        line = (List.range k).map (fun i => [(posAt d r c i).1, (posAt d r c i).2])) :=
  checkWin_spec g k hsq

/-- C1 witness: the soundness statement evaluated on the spec's example grid. -/
theorem claim_C1_witness :
    ClassicGameLogic.checkWin exGrid1 3 = ⟨none, none⟩ ∨
    ∃ s line, ClassicGameLogic.checkWin exGrid1 3 = ⟨some s, some line⟩ ∧
      (s = Cell.x ∨ s = Cell.o) ∧ line.length = 3 ∧
      (∀ p ∈ line, ∃ r c, p = [r, c] ∧ r < exGrid1.length ∧ c < exGrid1.length ∧
        cellAt exGrid1 r c = s) ∧
      (∃ d r c, (d = Dir.diagDL → 3 ≤ c + 1) ∧
        line = (List.range 3).map (fun i => [(posAt d r c i).1, (posAt d r c i).2])) :=
  claim_C1_checkWin_sound exGrid1 3 (by decide)

/-- C7: checkWin scans horizontal runs first in row-major order, then
vertical, then diagonal down-right, then diagonal down-left, returning the
first winLength-run found in that order; on the grid
[[X,X,X],[O,O,''],['','','']] with winLength 3 it returns winner X with line
[[0,0],[0,1],[0,2]]. -/
theorem claim_C7_scan_order :
    (∀ (g : Grid) (k : Nat),
      ClassicGameLogic.checkWinAux g k =
        (scanOrderCands g.length k).findSome?
          (fun t => tryWinAt g k t.1 t.2.1 t.2.2)) ∧
    ClassicGameLogic.checkWin exGrid1 3 =
      ⟨some Cell.x, some [[0, 0], [0, 1], [0, 2]]⟩ := by
  constructor
  · intro g k
    rw [checkWinAux_eq_or]
    unfold scanOrderCands scanDir
    rw [List.findSome?_append, List.findSome?_append, List.findSome?_append,
      List.findSome?_map, List.findSome?_map, List.findSome?_map, List.findSome?_map]
    simp only [Function.comp_def, Option.or_assoc]
  · decide

/-- Evaluation of the ultimate isValidMove guard on an in-bounds cell. -/
lemma isValidMove_eval {g : Grid} {row col : Nat} (hr : row < g.length)
    (hc : col < (g[row]).length) (tb : Option Nat) :
    UltimateGameLogic.isValidMove g row col tb =
      if (g[row])[col] != Cell.empty then false
      else
        match tb with
        | none => true
        | some t => UltimateGameLogic.getLocalBoardIndex row col == t := by
  unfold UltimateGameLogic.isValidMove
  rw [List.getElem?_eq_getElem hr]
  dsimp only
  rw [List.getElem?_eq_getElem hc]

/-- A 9x9 grid whose top-left sub-board is won by X on its first row, with
all other cells empty; cell (1, 0) is empty and lies in that won sub-board. -/
def wonBoardGrid : Grid :=
  [Cell.x, Cell.x, Cell.x, Cell.empty, Cell.empty, Cell.empty,
   Cell.empty, Cell.empty, Cell.empty] ::
    List.replicate 8 (List.replicate 9 Cell.empty)

/-- C2 counterexample: on wonBoardGrid the free move (1, 0) is accepted by
UltimateGameLogic.isValidMove even though the sub-board containing (1, 0)
already has local winner X, so a free move may be placed into a won
sub-board, contrary to the claim. -/
theorem claim_C2_counterexample :
    UltimateGameLogic.isValidMove wonBoardGrid 1 0 none = true ∧
    UltimateGameLogic.checkLocalWinner wonBoardGrid
      (UltimateGameLogic.getLocalBoardIndex 1 0) = some Cell.x := by
  decide

/-- C2 amended: for a 9x9 grid and in-bounds coordinates, a free move
(targetBoard null) is accepted iff the addressed cell is empty; the sub-board
containing the cell is then necessarily not full (it holds the empty cell),
but it may already be won. -/
theorem claim_C2_amended_free_move (g : Grid) (h9 : g.length = 9)
    (hsq : isSquare g) (row col : Nat) (hrow : row < 9) (hcol : col < 9) :
    (UltimateGameLogic.isValidMove g row col none = true ↔
      cellAt g row col = Cell.empty) ∧
    (UltimateGameLogic.isValidMove g row col none = true →
      UltimateGameLogic.isLocalBoardFull g
        (UltimateGameLogic.getLocalBoardIndex row col) = false) := by
  have hr9 : row < g.length := by omega
  have hlen : (g[row]).length = g.length := hsq _ (List.getElem_mem hr9)
  have hc9 : col < (g[row]).length := by omega
  have hcell : cellAt g row col = (g[row])[col] := by
    unfold cellAt
    rw [List.getD_eq_getElem g [] hr9, List.getD_eq_getElem (g[row]) Cell.empty hc9]
  have hiff : UltimateGameLogic.isValidMove g row col none = true ↔
      cellAt g row col = Cell.empty := by
    rw [isValidMove_eval hr9 hc9, hcell]
    by_cases h : (g[row])[col] = Cell.empty <;> simp [h]
  refine ⟨hiff, ?_⟩
  intro hv
  have he := hiff.mp hv
  by_contra hfull
  rw [Bool.not_eq_false] at hfull
  have hall := (isLocalBoardFull_iff g _).mp hfull (row % 3) (by omega) (col % 3) (by omega)
  apply hall
  have hridx : UltimateGameLogic.getLocalBoardIndex row col / 3 * 3 + row % 3 = row := by
    unfold UltimateGameLogic.getLocalBoardIndex
    omega
  have hcidx : UltimateGameLogic.getLocalBoardIndex row col % 3 * 3 + col % 3 = col := by
    unfold UltimateGameLogic.getLocalBoardIndex
    omega
  rw [hridx, hcidx]
  exact he

/-- C2 witness: the amended statement evaluated on the empty 9x9 grid at
cell (0, 0). -/
theorem claim_C2_amended_witness :
    (UltimateGameLogic.isValidMove (emptyGrid 9) 0 0 none = true ↔
      cellAt (emptyGrid 9) 0 0 = Cell.empty) ∧
    (UltimateGameLogic.isValidMove (emptyGrid 9) 0 0 none = true →
      UltimateGameLogic.isLocalBoardFull (emptyGrid 9)
        (UltimateGameLogic.getLocalBoardIndex 0 0) = false) :=
  claim_C2_amended_free_move (emptyGrid 9) (by decide) (by decide) 0 0
    (by decide) (by decide)

/-- C3: with localWinners computed from the grid, getTargetBoard returns null
exactly when the sub-board with index (r mod 3)*3 + (c mod 3) has a non-null
local winner or is full, and otherwise returns exactly that index. -/
theorem claim_C3_getTargetBoard (g : Grid) (r c : Nat) (hr : r < 9) (hc : c < 9) :
    (UltimateGameLogic.getTargetBoard r c g (UltimateGameLogic.getLocalWinners g) = none ↔
      (UltimateGameLogic.checkLocalWinner g (r % 3 * 3 + c % 3) ≠ none ∨
        UltimateGameLogic.isLocalBoardFull g (r % 3 * 3 + c % 3) = true)) ∧
    (UltimateGameLogic.checkLocalWinner g (r % 3 * 3 + c % 3) = none →
      UltimateGameLogic.isLocalBoardFull g (r % 3 * 3 + c % 3) = false →
      UltimateGameLogic.getTargetBoard r c g (UltimateGameLogic.getLocalWinners g) =
        some (r % 3 * 3 + c % 3)) := by
  have hidx : r % 3 * 3 + c % 3 < 9 := by omega
  simp only [UltimateGameLogic.getTargetBoard, UltimateGameLogic.getLocalCellCoords,
    getLocalWinners_getElem? g hidx]
  cases hw : UltimateGameLogic.checkLocalWinner g (r % 3 * 3 + c % 3) with
  | none =>
    cases hfull : UltimateGameLogic.isLocalBoardFull g (r % 3 * 3 + c % 3) with
    | false => simp [jsNotNull]
    | true => simp [jsNotNull]
  | some w => simp [jsNotNull]

/-- C3 witness: on the empty 9x9 grid after a move at (0, 0), the target
board is sub-board 0 (not yet won, not full). -/
theorem claim_C3_witness :
    (UltimateGameLogic.getTargetBoard 0 0 (emptyGrid 9)
        (UltimateGameLogic.getLocalWinners (emptyGrid 9)) = none ↔
      (UltimateGameLogic.checkLocalWinner (emptyGrid 9) (0 % 3 * 3 + 0 % 3) ≠ none ∨
        UltimateGameLogic.isLocalBoardFull (emptyGrid 9) (0 % 3 * 3 + 0 % 3) = true)) ∧
    (UltimateGameLogic.checkLocalWinner (emptyGrid 9) (0 % 3 * 3 + 0 % 3) = none →
      UltimateGameLogic.isLocalBoardFull (emptyGrid 9) (0 % 3 * 3 + 0 % 3) = false →
      UltimateGameLogic.getTargetBoard 0 0 (emptyGrid 9)
        (UltimateGameLogic.getLocalWinners (emptyGrid 9)) = some (0 % 3 * 3 + 0 % 3)) :=
  claim_C3_getTargetBoard (emptyGrid 9) 0 0 (by decide) (by decide)

/-- C4: UltimateGameLogic defines no method named getTargetBoardFromGrid, so
GameBoard's online ultimate-mode target-board derivation, which invokes that
member, faults (TypeError) for every grid and local-winner list instead of
producing a value. -/
theorem claim_C4_missing_method (g : Grid) (lw : List (Option Cell)) :
    ("getTargetBoardFromGrid" ∉ UltimateGameLogic.definedMethods) ∧
    GameBoard.onlineUltimateTargetBoard g lw =
      Except.error
        ("TypeError: UltimateGameLogic.getTargetBoardFromGrid is not a function") := by
  refine ⟨by decide, ?_⟩
  unfold GameBoard.onlineUltimateTargetBoard
  rw [if_neg (by decide)]

/-- C5: every entry of a non-null checkGlobalWinner winning line is a
one-element [i] with i a sub-board index in 0..8, never a two-element raw
cell coordinate. -/
theorem claim_C5_global_line_indices (lw : List (Option Cell))
    (hlen : lw.length = 9) (line : List (List Nat))
    (hline : (UltimateGameLogic.checkGlobalWinner lw).winningLine = some line) :
    ∀ e ∈ line, ∃ i, i < 9 ∧ e = [i] := by
  simp only [UltimateGameLogic.checkGlobalWinner] at hline
  rcases checkWin_spec (UltimateGameLogic.localGridOf lw) 3 (localGridOf_isSquare lw)
    with hnull | ⟨s, cline, heq, _, _, hcells, _⟩
  · rw [hnull] at hline
    exact absurd hline (by simp)
  · rw [heq] at hline
    simp only [Option.some.injEq] at hline
    subst hline
    intro e he
    obtain ⟨p, hp, rfl⟩ := List.mem_map.mp he
    obtain ⟨pr, pc, rfl, hpr, hpc, _⟩ := hcells p hp
    rw [localGridOf_length] at hpr hpc
    refine ⟨pr * 3 + pc, by omega, ?_⟩
    simp

/-- C5 witness: local winners with X owning sub-boards 0, 1, 2 produce the
winning line [[0], [1], [2]]; its middle entry is the sub-board index 1. -/
theorem claim_C5_witness :
    ∃ i, i < 9 ∧ ([1] : List Nat) = [i] :=
  claim_C5_global_line_indices
    [some Cell.x, some Cell.x, some Cell.x, none, none, none, none, none, none]
    (by decide) [[0], [1], [2]] (by decide) [1] (by decide)

/-- The winner field of checkGlobalWinner coincides with the winner of the
classic check on the meta grid of local winners. -/
lemma checkGlobalWinner_winner (lw : List (Option Cell)) :
    (UltimateGameLogic.checkGlobalWinner lw).winner =
      (ClassicGameLogic.checkWin (UltimateGameLogic.localGridOf lw) 3).winner := by
  simp only [UltimateGameLogic.checkGlobalWinner]
  split <;> rfl

/-- C6: with localWinners computed from the 9x9 grid, checkDraw is false
whenever checkGlobalWinner reports a winner, and otherwise is true exactly
when every one of the 81 cells is occupied. -/
theorem claim_C6_checkDraw (g : Grid) (h9 : g.length = 9) (hsq : isSquare g) :
    ((UltimateGameLogic.checkGlobalWinner (UltimateGameLogic.getLocalWinners g)).winner ≠ none →
      UltimateGameLogic.checkDraw g (UltimateGameLogic.getLocalWinners g) = false) ∧
    ((UltimateGameLogic.checkGlobalWinner (UltimateGameLogic.getLocalWinners g)).winner = none →
      (UltimateGameLogic.checkDraw g (UltimateGameLogic.getLocalWinners g) = true ↔
        ∀ r < 9, ∀ c < 9, cellAt g r c ≠ Cell.empty)) := by
  constructor
  · intro hw
    have htr : truthyWinner
        (UltimateGameLogic.checkGlobalWinner (UltimateGameLogic.getLocalWinners g)).winner
          = true := by
      cases hwv : (UltimateGameLogic.checkGlobalWinner
          (UltimateGameLogic.getLocalWinners g)).winner with
      | none => exact absurd hwv hw
      | some s =>
        have hne : s ≠ Cell.empty := by
          apply checkWin_winner_ne_empty
            (g := UltimateGameLogic.localGridOf (UltimateGameLogic.getLocalWinners g)) (k := 3)
          rw [← checkGlobalWinner_winner]
          exact hwv
        simp [truthyWinner, hne]
    unfold UltimateGameLogic.checkDraw
    rw [htr]
    rfl
  · intro hw
    have htr : truthyWinner
        (UltimateGameLogic.checkGlobalWinner (UltimateGameLogic.getLocalWinners g)).winner
          = false := by
      rw [hw]
      rfl
    unfold UltimateGameLogic.checkDraw
    rw [htr]
    simp only [Bool.false_eq_true, if_false]
    have hiff := allCells_iff hsq
    rw [h9] at hiff
    exact hiff

/-- C6 witness: on the empty 9x9 grid there is no global winner and checkDraw
agrees with the all-cells-occupied condition (both sides false). -/
theorem claim_C6_witness :
    UltimateGameLogic.checkDraw (emptyGrid 9)
        (UltimateGameLogic.getLocalWinners (emptyGrid 9)) = true ↔
      ∀ r < 9, ∀ c < 9, cellAt (emptyGrid 9) r c ≠ Cell.empty :=
  (claim_C6_checkDraw (emptyGrid 9) (by decide) (by decide)).2 (by decide)

/-- C8: resetGame with a stale match id issues no write; with the current
match id it writes back an all-empty grid of the room's size, an empty vote
map and an incremented match id, leaving every other field unchanged. -/
theorem claim_C8_resetGame (room : RoomRow) (currentMatchId : Nat) :
    (room.match_id ≠ currentMatchId →
      GameService.resetGame room currentMatchId = none) ∧
    (room.match_id = currentMatchId →
      ∃ updated, GameService.resetGame room currentMatchId = some updated ∧
        updated.grid = emptyGrid
          (if room.mode = GameMode.ultimate then 9 else jsOrNat room.grid_size 3) ∧
        updated.restart_votes = [] ∧
        updated.match_id = currentMatchId + 1 ∧
        updated.room_code = room.room_code ∧
        updated.mode = room.mode ∧
        updated.grid_size = room.grid_size ∧
        updated.win_length = room.win_length ∧
        updated.players = room.players) := by
  constructor
  · intro h
    unfold GameService.resetGame
    rw [if_pos h]
  · intro h
    unfold GameService.resetGame
    rw [if_neg (by simp [h])]
    exact ⟨_, rfl, rfl, rfl, rfl, rfl, rfl, rfl, rfl, rfl⟩

/-- A sample stored room row used to evaluate the service claims. -/
def sampleRoom : RoomRow :=
  { room_code := "ABCDE"
    mode := GameMode.classic
    grid_size := some 4
    win_length := some 3
    players := [{ name := "alice", status := "player", symbol := "X",
                  client_id := "c1" }]
    grid := [[Cell.x, Cell.empty, Cell.empty, Cell.empty],
             [Cell.empty, Cell.o, Cell.empty, Cell.empty],
             [Cell.empty, Cell.empty, Cell.empty, Cell.empty],
             [Cell.empty, Cell.empty, Cell.empty, Cell.empty]]
    restart_votes := [("X", true), ("O", true)]
    match_id := 5 }

/-- C8 witness: the stale branch at observed match id 4 (stored 5) and the
matching branch at 5, both on the sample room. -/
theorem claim_C8_witness :
    GameService.resetGame sampleRoom 4 = none ∧
    ∃ updated, GameService.resetGame sampleRoom 5 = some updated ∧
      updated.grid = emptyGrid
        (if sampleRoom.mode = GameMode.ultimate then 9 else jsOrNat sampleRoom.grid_size 3) ∧
      updated.restart_votes = [] ∧
      updated.match_id = 5 + 1 ∧
      updated.room_code = sampleRoom.room_code ∧
      updated.mode = sampleRoom.mode ∧
      updated.grid_size = sampleRoom.grid_size ∧
      updated.win_length = sampleRoom.win_length ∧
      updated.players = sampleRoom.players :=
  ⟨(claim_C8_resetGame sampleRoom 4).1 (by decide),
   (claim_C8_resetGame sampleRoom 5).2 (by decide)⟩

lemma allocGo_all_exist (ex : String → Bool) (gen : Nat → String)
    (h : ∀ code, ex code = true) :
    ∀ fuel calls, GameService.allocGo ex gen fuel calls = (none, calls + fuel) := by
  intro fuel
  induction fuel with
  | zero => intro calls; rfl
  | succ n ih =>
    intro calls
    unfold GameService.allocGo
    rw [if_pos (h (gen calls)), ih (calls + 1)]
    have harith : calls + 1 + n = calls + (n + 1) := by omega
    rw [harith]

/-- C9: when the store reports every generated code as existing, createRoom
performs exactly 10 generation attempts (each checked by one existence
lookup) and fails without inserting a row. -/
theorem claim_C9_createRoom_exhaustion (ex : String → Bool) (gen : Nat → String)
    (clientId : String) (mode : GameMode) (playerName : String)
    (gridSize winLength : Option Nat) (h : ∀ code, ex code = true) :
    GameService.createRoom ex gen clientId mode playerName gridSize winLength =
      (none, 10) := by
  unfold GameService.createRoom
  rw [allocGo_all_exist ex gen h 10 0]

/-- C9 witness: a store in which every code exists, with a fixed generator. -/
theorem claim_C9_witness :
    GameService.createRoom (fun _ => true) (fun _ => "AAAAA") ("c1")
      GameMode.classic ("alice") (some 3) (some 3) = (none, 10) :=
  claim_C9_createRoom_exhaustion (fun _ => true) (fun _ => "AAAAA") ("c1")
    GameMode.classic ("alice") (some 3) (some 3) (fun _ => rfl)

lemma cellAt_eq (g : Grid) (r c : Nat) :
    cellAt g r c = (((g[r]?).getD [])[c]?).getD Cell.empty := by
  unfold cellAt
  rw [List.getD_eq_getElem?_getD, List.getD_eq_getElem?_getD]

lemma applyMove_getElem? (g : Grid) (row col : Nat) (s : Cell) (r : Nat) :
    (GameService.applyMove g row col s)[r]? =
      (g[r]?).map (fun gridRow =>
        mapWithIdx (fun colIndex cell =>
          if r = row ∧ colIndex = col then s else cell) 0 gridRow) := by
  unfold GameService.applyMove
  rw [mapWithIdx_getElem?]
  simp only [Nat.zero_add]

lemma applyMove_cellAt_other (g : Grid) (row col : Nat) (s : Cell) {r c : Nat}
    (h : ¬(r = row ∧ c = col)) :
    cellAt (GameService.applyMove g row col s) r c = cellAt g r c := by
  rw [cellAt_eq, cellAt_eq, applyMove_getElem?]
  cases hgr : g[r]? with
  | none => rfl
  | some gr =>
    simp only [Option.map_some', Option.getD_some]
    rw [mapWithIdx_getElem?]
    simp only [Nat.zero_add]
    cases hc : gr[c]? with
    | none => rfl
    | some cell =>
      simp only [Option.map_some', Option.getD_some]
      rw [if_neg h]

lemma applyMove_cellAt_self (g : Grid) {row col : Nat} (s : Cell)
    (hr : row < g.length) (hc : col < (g[row]).length) :
    cellAt (GameService.applyMove g row col s) row col = s := by
  rw [cellAt_eq, applyMove_getElem?, List.getElem?_eq_getElem hr]
  simp only [Option.map_some', Option.getD_some]
  rw [mapWithIdx_getElem?]
  simp only [Nat.zero_add]
  rw [List.getElem?_eq_getElem hc]
  simp

lemma applyMove_length (g : Grid) (row col : Nat) (s : Cell) :
    (GameService.applyMove g row col s).length = g.length :=
  mapWithIdx_length _ 0 g

lemma applyMove_rowLength (g : Grid) (row col : Nat) (s : Cell) (r : Nat) :
    ((GameService.applyMove g row col s).getD r []).length =
      (g.getD r []).length := by
  rw [List.getD_eq_getElem?_getD, List.getD_eq_getElem?_getD, applyMove_getElem?]
  cases g[r]? with
  | none => rfl
  | some gr => simp [mapWithIdx_length]

/-- C10: makeMove writes back the fetched grid with exactly the addressed
cell replaced by the symbol (shape preserved, every other cell unchanged)
and leaves every other room field untouched; the overwrite is unconditional,
with no emptiness or turn precondition. -/
theorem claim_C10_makeMove (room : RoomRow) (row col : Nat) (s : Cell) :
    ((GameService.makeMove room row col s).players = room.players ∧
      (GameService.makeMove room row col s).restart_votes = room.restart_votes ∧
      (GameService.makeMove room row col s).match_id = room.match_id ∧
      (GameService.makeMove room row col s).mode = room.mode ∧
      (GameService.makeMove room row col s).grid_size = room.grid_size ∧
      (GameService.makeMove room row col s).win_length = room.win_length ∧
      (GameService.makeMove room row col s).room_code = room.room_code) ∧
    (GameService.makeMove room row col s).grid.length = room.grid.length ∧
    (∀ r, ((GameService.makeMove room row col s).grid.getD r []).length =
      (room.grid.getD r []).length) ∧
    (row < room.grid.length → col < (room.grid.getD row []).length →
      cellAt (GameService.makeMove room row col s).grid row col = s) ∧
    (∀ r c, ¬(r = row ∧ c = col) →
      cellAt (GameService.makeMove room row col s).grid r c = cellAt room.grid r c) := by
  refine ⟨⟨rfl, rfl, rfl, rfl, rfl, rfl, rfl⟩,
    applyMove_length room.grid row col s,
    fun r => applyMove_rowLength room.grid row col s r, ?_, ?_⟩
  · intro hr hc
    have hc' : col < (room.grid[row]).length := by
      rw [List.getD_eq_getElem room.grid [] hr] at hc
      exact hc
    exact applyMove_cellAt_self room.grid s hr hc'
  · intro r c h
    exact applyMove_cellAt_other room.grid row col s h

/-- C10 witness: on the sample room, overwriting the already-occupied cell
(0, 0) with O succeeds (no emptiness check) and the neighbouring cell is
untouched. -/
theorem claim_C10_witness :
    cellAt (GameService.makeMove sampleRoom 0 0 Cell.o).grid 0 0 = Cell.o ∧
    cellAt (GameService.makeMove sampleRoom 0 0 Cell.o).grid 1 1 =
      cellAt sampleRoom.grid 1 1 :=
  ⟨(claim_C10_makeMove sampleRoom 0 0 Cell.o).2.2.2.1 (by decide) (by decide),
   (claim_C10_makeMove sampleRoom 0 0 Cell.o).2.2.2.2 1 1 (by decide)⟩

example :
    ClassicGameLogic.checkWin
      [[Cell.x, Cell.o, Cell.x], [Cell.o, Cell.o, Cell.x],
       [Cell.x, Cell.o, Cell.o]] 3 =
    ⟨some Cell.o, some [[0, 1], [1, 1], [2, 1]]⟩ := by decide

example :
    ClassicGameLogic.checkWin
      [[Cell.x, Cell.o], [Cell.o, Cell.x]] 2 =
    ⟨some Cell.x, some [[0, 0], [1, 1]]⟩ := by decide

example :
    ClassicGameLogic.checkWin
      [[Cell.empty, Cell.o], [Cell.o, Cell.empty]] 2 =
    ⟨some Cell.o, some [[0, 1], [1, 0]]⟩ := by decide
